import Mathlib

/-!
Shallow embedding of `src/nvtt/bc7/arvo/Rand.cpp` (ArvoMath random number
generators): three generator variants `RandGen_1`, `RandGen_2`, `RandGen_3`
(each with a scalar `Eval`, an array `Eval(n, array)` and a `Seed`), and the
`RandGen::Perm` permutation builder.

Modelling conventions:
- C `long` values are modelled as unbounded integers `ℤ` (the algorithms'
  intermediate values fit in the platform integer type for the seed ranges
  the claims exercise; overflow is not modelled).
- C `/` and `%` on `long` truncate toward zero; they are modelled by `ctdiv`
  and `ctmod` below, which agree with C for every sign of the dividend
  (all divisors in this file are positive).
- C `float`/`double` results are modelled as exact rationals `ℚ`; the decimal
  constants of the source are carried exactly.
- The fixed 98-entry `shuffle` array of `RandGen_1` is a `List ℤ` of length
  98; reads use `List.getD` (out-of-range reads, which the source never
  performs, default to 0), writes use `List.set`.
-/

/-- C truncating division (divisor positive in all uses): rounds toward zero.
For `0 ≤ a` it agrees with Euclidean division. -/
def ctdiv (a b : ℤ) : ℤ := if 0 ≤ a then a / b else -((-a) / b)

/-- C `%` (truncated remainder): `a - b * (a ctdiv b)`. -/
def ctmod (a b : ℤ) : ℤ := a - b * ctdiv a b

/-- The `ABS` macro of `Rand.cpp`: `((x) > 0 ? (x) : -(x))`. -/
def cabs (x : ℤ) : ℤ := if x > 0 then x else -x

/-- C cast of a (real-valued) `float` to `int`: truncation toward zero,
computed on the exact rational. -/
def ctrunc (q : ℚ) : ℤ := ctdiv q.num (q.den : ℤ)

/-! ## Method 1 (shuffled linear congruential generator, Numerical Recipes) -/

/-- `static const long M1 = 714025`. -/
def M1 : ℤ := 714025

/-- `static const long IA = 1366`. -/
def IA : ℤ := 1366

/-- `static const long IC = 150889`. -/
def IC : ℤ := 150889

/-- `static const double RM = 1.400512E-6`, carried exactly. -/
def RM : ℚ := 1400512 / 10 ^ 12

/-- State of `RandGen_1`: members `index`, `seed` and the 98-entry
`shuffle` table (slot 0 unused, slots 1..97 active). -/
structure St1 where
  index : ℤ
  seed : ℤ
  shuffle : List ℤ
  deriving Repr, DecidableEq

/-- The offset computation shared by both `RandGen_1::Eval` bodies:
`offset = 1 + (97 * index) / M1`, then clamped above to 97, then below to 1. -/
def RandGen_1.Offset (index : ℤ) : ℤ :=
  let o := 1 + ctdiv (97 * index) M1
  let o := if o > 97 then 97 else o
  if o < 1 then 1 else o

/-- `RandGen_1::Eval()` (scalar): read `elem = shuffle[offset]`, set
`index = elem`, return `elem * RM`; then write
`shuffle[offset] = seed = (IA*seed + IC) % M1`. -/
def RandGen_1.Eval (st : St1) : ℚ × St1 :=
  let offset := (RandGen_1.Offset st.index).toNat
  let elem := st.shuffle.getD offset 0
  let newSeed := ctmod (IA * st.seed + IC) M1
  ((elem : ℚ) * RM,
   { index := elem, seed := newSeed, shuffle := st.shuffle.set offset newSeed })

/-- `RandGen_1::Eval(int n, float *array)`: the array form, whose loop body
repeats the scalar computation and appends each value in order. -/
def RandGen_1.EvalArr : ℕ → St1 → List ℚ × St1
  | 0, st => ([], st)
  | n + 1, st =>
    let offset := (RandGen_1.Offset st.index).toNat
    let elem := st.shuffle.getD offset 0
    let newSeed := ctmod (IA * st.seed + IC) M1
    let st' : St1 :=
      { index := elem, seed := newSeed, shuffle := st.shuffle.set offset newSeed }
    let rest := RandGen_1.EvalArr n st'
    ((elem : ℚ) * RM :: rest.1, rest.2)

/-- `n` successive scalar `RandGen_1::Eval()` calls, collecting the results. -/
def RandGen_1.EvalSeq : ℕ → St1 → List ℚ × St1
  | 0, st => ([], st)
  | n + 1, st =>
    let p := RandGen_1.Eval st
    let rest := RandGen_1.EvalSeq n p.2
    (p.1 :: rest.1, rest.2)

/-- `RandGen_1::Seed(long seed)`: fills `shuffle[1..97]` from the linear
congruential recurrence and sets `index` to the abs of one further step.
The source's final `seed = ABS(t)` assigns to the PARAMETER `seed`, which
shadows the member `seed`, so the member `seed` is left unchanged; the model
reproduces that faithfully via `seed := st.seed`. -/
def RandGen_1.Seed (s : ℤ) (st : St1) : St1 :=
  let t0 := ctmod (IC + cabs s + 1) M1
  let step : (ℤ × List ℤ) → ℕ → (ℤ × List ℤ) := fun p k =>
    let t := ctmod (IA * p.1 + IC) M1
    (t, p.2.set (k + 1) (cabs t))
  let r := (List.range 97).foldl step (t0, st.shuffle)
  let t := ctmod (IA * r.1 + IC) M1
  { index := cabs t, seed := st.seed, shuffle := r.2 }

/-! ## Method 2 (multiple-prime additive generator, Haas) -/

/-- `1.00010001E-4`, carried exactly. -/
def RC2 : ℚ := 100010001 / 10 ^ 12

/-- State of `RandGen_2`: members `r`, `m`, `i`, `j`. -/
structure St2 where
  r : ℤ
  m : ℤ
  i : ℤ
  j : ℤ
  deriving Repr, DecidableEq

/-- `RandGen_2::Eval()` (scalar): the three conditionally-wrapped additive
updates of `m`, `i`, `j`, then `r = ((r*m + i + j) % 100000) / 10`,
returning `r * 1.00010001E-4`. -/
def RandGen_2.Eval (st : St2) : ℚ × St2 :=
  let m := st.m + 7
  let m := if m ≥ 9973 then m - 9871 else m
  let i := st.i + 1907
  let i := if i ≥ 99991 then i - 89989 else i
  let j := st.j + 73939
  let j := if j ≥ 224729 then j - 96233 else j
  let r := ctdiv (ctmod (st.r * m + i + j) 100000) 10
  ((r : ℚ) * RC2, { r := r, m := m, i := i, j := j })

/-- `RandGen_2::Eval(int n, float *array)`: the array form, whose loop body
repeats the scalar computation. -/
def RandGen_2.EvalArr : ℕ → St2 → List ℚ × St2
  | 0, st => ([], st)
  | n + 1, st =>
    let m := st.m + 7
    let m := if m ≥ 9973 then m - 9871 else m
    let i := st.i + 1907
    let i := if i ≥ 99991 then i - 89989 else i
    let j := st.j + 73939
    let j := if j ≥ 224729 then j - 96233 else j
    let r := ctdiv (ctmod (st.r * m + i + j) 100000) 10
    let rest := RandGen_2.EvalArr n { r := r, m := m, i := i, j := j }
    ((r : ℚ) * RC2 :: rest.1, rest.2)

/-- `n` successive scalar `RandGen_2::Eval()` calls, collecting the results. -/
def RandGen_2.EvalSeq : ℕ → St2 → List ℚ × St2
  | 0, st => ([], st)
  | n + 1, st =>
    let p := RandGen_2.Eval st
    let rest := RandGen_2.EvalSeq n p.2
    (p.1 :: rest.1, rest.2)

/-- `RandGen_2::Seed(long seed)`: `r = ABS(seed)`, `m = ABS(seed*7)`,
`i = ABS(seed*11)`, `j = ABS(seed*13)`, then the three minimum clamps. -/
def RandGen_2.Seed (s : ℤ) : St2 :=
  let r := cabs s
  let m := cabs (s * 7)
  let i := cabs (s * 11)
  let j := cabs (s * 13)
  let m := if m < 100 then m + 100 else m
  let i := if i < 10000 then i + 10000 else i
  let j := if j < 128000 then j + 128000 else j
  { r := r, m := m, i := i, j := j }

/-- `k`-fold iteration of the `RandGen_2` state update. -/
def RandGen_2.Iter : ℕ → St2 → St2
  | 0, st => st
  | k + 1, st => RandGen_2.Iter k (RandGen_2.Eval st).2

/-! ## Method 3 (Park-Miller multiplicative congruential generator, Schrage) -/

/-- `static const long A3 = 16807`. -/
def A3 : ℤ := 16807

/-- `static const long P3 = 2147483647`. -/
def P3 : ℤ := 2147483647

/-- `4.656612875E-10`, carried exactly. -/
def RC3 : ℚ := 4656612875 / 10 ^ 19

/-- State of `RandGen_3`: the single member `ix`. -/
structure St3 where
  ix : ℤ
  deriving Repr, DecidableEq

/-- `RandGen_3::Eval()` (scalar): the Schrage bit-split computation.  The
shifts and mask of the source act on non-negative values in every reachable
state; `x >> 16` is modelled as division by 65536, `x & 0xFFFF` as remainder
by 65536, `x << n` as multiplication. -/
def RandGen_3.Eval (st : St3) : ℚ × St3 :=
  let xhi := ctdiv st.ix 65536
  let xalo := ctmod st.ix 65536 * A3
  let leftlo := ctdiv xalo 65536
  let fhi := xhi * A3 + leftlo
  let k := ctdiv fhi 32768
  let ix := ((xalo - leftlo * 65536) - P3) + (fhi - k * 32768) * 65536 + k
  let ix := if ix < 0 then ix + P3 else ix
  ((ix : ℚ) * RC3, { ix := ix })

/-- `RandGen_3::Eval(int n, float *array)`: the array form, whose loop body
repeats the scalar computation. -/
def RandGen_3.EvalArr : ℕ → St3 → List ℚ × St3
  | 0, st => ([], st)
  | n + 1, st =>
    let xhi := ctdiv st.ix 65536
    let xalo := ctmod st.ix 65536 * A3
    let leftlo := ctdiv xalo 65536
    let fhi := xhi * A3 + leftlo
    let k := ctdiv fhi 32768
    let ix := ((xalo - leftlo * 65536) - P3) + (fhi - k * 32768) * 65536 + k
    let ix := if ix < 0 then ix + P3 else ix
    let rest := RandGen_3.EvalArr n { ix := ix }
    ((ix : ℚ) * RC3 :: rest.1, rest.2)

/-- `n` successive scalar `RandGen_3::Eval()` calls, collecting the results. -/
def RandGen_3.EvalSeq : ℕ → St3 → List ℚ × St3
  | 0, st => ([], st)
  | n + 1, st =>
    let p := RandGen_3.Eval st
    let rest := RandGen_3.EvalSeq n p.2
    (p.1 :: rest.1, rest.2)

/-- `RandGen_3::Seed(long seed)`: `ix = ABS(seed)`. -/
def RandGen_3.Seed (s : ℤ) : St3 := { ix := cabs s }

/-! ## `RandGen::Perm` (permutation builder)

`Perm` is a method of the abstract base class and calls the virtual
`Eval(int, float*)`; it is modelled over an arbitrary generator given by a
state type `σ` and a batch evaluator `ev : ℕ → σ → List ℚ × σ`. -/

/-- `static const int Nmax = 20`. -/
def Nmax : ℤ := 20

/-- The local variables of `RandGen::Perm` that live across loop
iterations: the destination array `perm`, the batch buffer `R`, the
counters `L`, `N`, `n`, and the generator state. -/
structure PSt (σ : Type) where
  perm : List ℤ
  R : List ℚ
  L : ℤ
  N : ℤ
  n : ℤ
  g : σ

/-- One iteration of the main loop of `RandGen::Perm`, at loop index `i`:
refill the batch buffer when exhausted (`n == N`), pick
`r = (i+1) * R[n++]`, truncate to `k`, and swap `perm[i]` with `perm[k]`
when `k < i`. -/
def permBody {σ : Type} (ev : ℕ → σ → List ℚ × σ) (i : ℕ) (st : PSt σ) : PSt σ :=
  let st :=
    if st.n = st.N then
      let N := if st.L < Nmax then st.L else Nmax
      let p := ev N.toNat st.g
      { st with R := p.1, g := p.2, L := st.L - N, N := N, n := 0 }
    else st
  let r : ℚ := ((i : ℚ) + 1) * st.R.getD st.n.toNat 0
  let st := { st with n := st.n + 1 }
  let k := ctrunc r
  if k < (i : ℤ) then
    { st with
      perm := (st.perm.set i (st.perm.getD k.toNat 0)).set k.toNat (st.perm.getD i 0) }
  else st

/-- The main loop of `RandGen::Perm`, running the body at
`i = m, m-1, ..., 1`. -/
def permLoop {σ : Type} (ev : ℕ → σ → List ℚ × σ) : ℕ → PSt σ → PSt σ
  | 0, st => st
  | m + 1, st => permLoop ev m (permBody ev (m + 1) st)

/-- `RandGen::Perm(int len, int perm[])`: initialize `perm[j] = j` for
`j = 0 .. len-1`, then run the swap loop from `i = len-1` down to `1`,
drawing random numbers in batches of at most `Nmax`.  `buf` is the
caller-supplied destination array; the result is the final array contents
and the final generator state. -/
def RandGen.Perm {σ : Type} (ev : ℕ → σ → List ℚ × σ) (len : ℤ) (buf : List ℤ)
    (g : σ) : List ℤ × σ :=
  let buf := (List.range len.toNat).foldl (fun b j => b.set j (j : ℤ)) buf
  let st : PSt σ := { perm := buf, R := [], L := len - 1, N := 0, n := 0, g := g }
  let stf := permLoop ev (len - 1).toNat st
  (stf.perm, stf.g)

/-! ## Helper lemmas -/

theorem ctdiv_of_nonneg {a : ℤ} (b : ℤ) (h : 0 ≤ a) : ctdiv a b = a / b := by
  simp [ctdiv, h]

theorem ctmod_of_nonneg {a : ℤ} (b : ℤ) (h : 0 ≤ a) : ctmod a b = a % b := by
  simp [ctmod, ctdiv, h, Int.emod_def]

theorem evalArr1_eq_seq : ∀ (n : ℕ) (st : St1),
    RandGen_1.EvalArr n st = RandGen_1.EvalSeq n st := by
  intro n
  induction n with
  | zero => intro st; rfl
  | succ n ih =>
    intro st
    simp only [RandGen_1.EvalArr, RandGen_1.EvalSeq, RandGen_1.Eval, ih]

theorem evalArr2_eq_seq : ∀ (n : ℕ) (st : St2),
    RandGen_2.EvalArr n st = RandGen_2.EvalSeq n st := by
  intro n
  induction n with
  | zero => intro st; rfl
  | succ n ih =>
    intro st
    simp only [RandGen_2.EvalArr, RandGen_2.EvalSeq, RandGen_2.Eval, ih]

theorem evalArr3_eq_seq : ∀ (n : ℕ) (st : St3),
    RandGen_3.EvalArr n st = RandGen_3.EvalSeq n st := by
  intro n
  induction n with
  | zero => intro st; rfl
  | succ n ih =>
    intro st
    simp only [RandGen_3.EvalArr, RandGen_3.EvalSeq, RandGen_3.Eval, ih]

/-! ## Claim theorems -/

/-- C3: for every generator variant, every internal state, and every n ≥ 0,
the array form `Eval(n, buffer)` produces exactly the values of n successive
scalar `Eval()` calls from the same starting state, in order, and leaves the
generator in the same final state; n = 0 writes nothing and changes no
state. -/
theorem batch_eval_eq_scalar :
    (∀ (n : ℕ) (st : St1), RandGen_1.EvalArr n st = RandGen_1.EvalSeq n st) ∧
    (∀ (n : ℕ) (st : St2), RandGen_2.EvalArr n st = RandGen_2.EvalSeq n st) ∧
    (∀ (n : ℕ) (st : St3), RandGen_3.EvalArr n st = RandGen_3.EvalSeq n st) ∧
    (∀ st : St1, RandGen_1.EvalArr 0 st = ([], st)) ∧
    (∀ st : St2, RandGen_2.EvalArr 0 st = ([], st)) ∧
    (∀ st : St3, RandGen_3.EvalArr 0 st = ([], st)) :=
  ⟨evalArr1_eq_seq, evalArr2_eq_seq, evalArr3_eq_seq,
   fun _ => rfl, fun _ => rfl, fun _ => rfl⟩

/-- C10: in both `RandGen_1::Eval` forms the computed offset, after the two
clamp comparisons, lies in [1, 97] for every value of the member `index`;
both forms read and write the shuffle table only at that offset, so slot 0
is never accessed and no access falls outside the 98-entry array. -/
theorem rg1_offset_bounds :
    (∀ index : ℤ, 1 ≤ RandGen_1.Offset index ∧ RandGen_1.Offset index ≤ 97) ∧
    (∀ st : St1,
      (RandGen_1.Eval st).1 =
        (st.shuffle.getD (RandGen_1.Offset st.index).toNat 0 : ℚ) * RM ∧
      (RandGen_1.Eval st).2.shuffle =
        st.shuffle.set (RandGen_1.Offset st.index).toNat (RandGen_1.Eval st).2.seed) ∧
    (∀ (st : St1) (n : ℕ),
      (RandGen_1.EvalArr (n + 1) st).1.headI =
        (st.shuffle.getD (RandGen_1.Offset st.index).toNat 0 : ℚ) * RM) := by
  refine ⟨?_, fun st => ⟨rfl, rfl⟩, fun st n => rfl⟩
  intro index
  simp only [RandGen_1.Offset, ctdiv, M1]
  split_ifs <;> omega

/-- C9: for every `len < 0`, `RandGen::Perm(len, perm)` is a no-op: both
loops execute zero iterations, so no element of the destination array is
written and no random value is drawn from the generator. -/
theorem perm_negative_len_noop :
    ∀ len : ℤ, len < 0 →
      ∀ (σ : Type) (ev : ℕ → σ → List ℚ × σ) (buf : List ℤ) (g : σ),
        RandGen.Perm ev len buf g = (buf, g) := by
  intro len h σ ev buf g
  have h1 : len.toNat = 0 := Int.toNat_of_nonpos (le_of_lt h)
  have h2 : (len - 1).toNat = 0 := Int.toNat_of_nonpos (by omega)
  simp [RandGen.Perm, h1, h2, permLoop]

/-- Witness for C9 at `len = -1`: `Perm` leaves the buffer `[5]` and the
generator state untouched. -/
theorem perm_negative_len_noop_witness :
    (-1 : ℤ) < 0 ∧
      RandGen.Perm (fun (_ : ℕ) (g : Unit) => ([], g)) (-1) [5] () = ([5], ()) :=
  ⟨by decide,
   perm_negative_len_noop (-1) (by decide) Unit (fun _ g => ([], g)) [5] ()⟩

/-- C7: for every `ix` in [0, 2^31-2], one `RandGen_3::Eval()` call updates
`ix` to `(16807 * ix) mod 2147483647` (the bit-split Schrage computation
equals direct modular arithmetic) and returns the new `ix` times
`4.656612875e-10`; in particular, after `Seed(1)` the first `Eval()` leaves
`ix = 16807`. -/
theorem rg3_schrage_eq_mod :
    ∀ ix : ℤ, 0 ≤ ix → ix ≤ 2 ^ 31 - 2 →
      ((RandGen_3.Eval ⟨ix⟩).2.ix = 16807 * ix % 2147483647 ∧
        (RandGen_3.Eval ⟨ix⟩).1 = ((16807 * ix % 2147483647 : ℤ) : ℚ) * RC3) ∧
      (RandGen_3.Eval (RandGen_3.Seed 1)).2.ix = 16807 := by
  intro ix h0 h1
  have hval : ∀ st : St3,
      (RandGen_3.Eval st).1 = (((RandGen_3.Eval st).2.ix : ℤ) : ℚ) * RC3 :=
    fun st => rfl
  have hstate : (RandGen_3.Eval ⟨ix⟩).2.ix = 16807 * ix % 2147483647 := by
    simp only [RandGen_3.Eval, A3, P3, ctdiv, ctmod]
    split_ifs <;> omega
  exact ⟨⟨hstate, by rw [hval, hstate]⟩, by decide⟩

/-- Witness for C7 at `ix = 5`. -/
theorem rg3_schrage_eq_mod_witness :
    (0 : ℤ) ≤ 5 ∧ (5 : ℤ) ≤ 2 ^ 31 - 2 ∧
      (((RandGen_3.Eval ⟨5⟩).2.ix = 16807 * 5 % 2147483647 ∧
        (RandGen_3.Eval ⟨5⟩).1 = ((16807 * 5 % 2147483647 : ℤ) : ℚ) * RC3) ∧
      (RandGen_3.Eval (RandGen_3.Seed 1)).2.ix = 16807) :=
  ⟨by decide, by decide, rg3_schrage_eq_mod 5 (by decide) (by decide)⟩

/-- The bounds the spec claims for the `RandGen_2` state after draws:
m ∈ [100, 9973), i ∈ [10000, 99991), j ∈ [128000, 224729). -/
def Inv2 (st : St2) : Prop :=
  100 ≤ st.m ∧ st.m < 9973 ∧ 10000 ≤ st.i ∧ st.i < 99991 ∧
    128000 ≤ st.j ∧ st.j < 224729

theorem iter2_succ_last : ∀ (k : ℕ) (st : St2),
    RandGen_2.Iter (k + 1) st = (RandGen_2.Eval (RandGen_2.Iter k st)).2 := by
  intro k
  induction k with
  | zero => intro st; rfl
  | succ k ih =>
    intro st
    show RandGen_2.Iter (k + 1) (RandGen_2.Eval st).2 = _
    rw [ih]
    rfl

theorem inv2_step (st : St2) (h : Inv2 st) : Inv2 (RandGen_2.Eval st).2 := by
  obtain ⟨h1, h2, h3, h4, h5, h6⟩ := h
  simp only [RandGen_2.Eval, Inv2]
  split_ifs <;> omega

theorem seed2_bounds (s : ℤ) (hlo : -2833 ≤ s) (hhi : s ≤ 2833) :
    100 ≤ (RandGen_2.Seed s).m ∧ (RandGen_2.Seed s).m ≤ 19836 ∧
      10000 ≤ (RandGen_2.Seed s).i ∧ (RandGen_2.Seed s).i ≤ 98083 ∧
      128000 ≤ (RandGen_2.Seed s).j ∧ (RandGen_2.Seed s).j ≤ 164829 := by
  simp only [RandGen_2.Seed, cabs]
  split_ifs <;> omega

theorem step_into_inv2 (st : St2) (h1 : 100 ≤ st.m) (h2 : st.m ≤ 19836)
    (h3 : 10000 ≤ st.i) (h4 : st.i ≤ 98083) (h5 : 128000 ≤ st.j)
    (h6 : st.j ≤ 164829) : Inv2 (RandGen_2.Eval st).2 := by
  simp only [RandGen_2.Eval, Inv2]
  split_ifs <;> omega

/-- C6 counterexample: for seed 3000, after one `Eval()` the member `m` is
11136, outside the claimed range [100, 9973): a single wraparound
subtraction does not bring a large seeded `m` back into range. -/
theorem rg2_bounds_cex :
    ¬ (100 ≤ (RandGen_2.Iter 1 (RandGen_2.Seed 3000)).m ∧
        (RandGen_2.Iter 1 (RandGen_2.Seed 3000)).m < 9973) := by
  decide

/-- C6 (amended): the ranges m ∈ [100, 9973), i ∈ [10000, 99991),
j ∈ [128000, 224729) are invariant under `RandGen_2::Eval` — once the state
satisfies them it satisfies them after every further `Eval()` — and they
hold after `Seed(s)` followed by any number k ≥ 1 of `Eval()` calls for
every seed with |s| ≤ 2833. -/
theorem rg2_bounds_amended :
    (∀ st : St2, Inv2 st → Inv2 (RandGen_2.Eval st).2) ∧
    (∀ s : ℤ, -2833 ≤ s → s ≤ 2833 →
      ∀ k : ℕ, Inv2 (RandGen_2.Iter (k + 1) (RandGen_2.Seed s))) := by
  refine ⟨inv2_step, fun s hlo hhi k => ?_⟩
  induction k with
  | zero =>
    obtain ⟨h1, h2, h3, h4, h5, h6⟩ := seed2_bounds s hlo hhi
    exact step_into_inv2 _ h1 h2 h3 h4 h5 h6
  | succ k ih =>
    rw [iter2_succ_last]
    exact inv2_step _ ih

/-- Witness for C6 (amended) at `s = 3`, `k = 0`. -/
theorem rg2_bounds_amended_witness :
    (-2833 : ℤ) ≤ 3 ∧ (3 : ℤ) ≤ 2833 ∧
      Inv2 (RandGen_2.Iter 1 (RandGen_2.Seed 3)) :=
  ⟨by decide, by decide, rg2_bounds_amended.2 3 (by decide) (by decide) 0⟩

theorem cons_set_perm : ∀ (xs : List ℤ) (j : ℕ) (b : ℤ), j < xs.length →
    List.Perm (xs.getD j 0 :: xs.set j b) (b :: xs) := by
  intro xs
  induction xs with
  | nil => intro j b h; simp at h
  | cons x t ih =>
    intro j b h
    cases j with
    | zero =>
      rw [List.getD_cons_zero, List.set_cons_zero]
      exact List.Perm.swap b x t
    | succ j =>
      rw [List.getD_cons_succ, List.set_cons_succ]
      have hj : j < t.length := by simpa using h
      exact ((List.Perm.swap x (t.getD j 0) (t.set j b)).trans
        (List.Perm.cons x (ih j b hj))).trans (List.Perm.swap b x t)

theorem set_set_perm : ∀ (l : List ℤ) (i k : ℕ), i < l.length → k < l.length →
    List.Perm ((l.set i (l.getD k 0)).set k (l.getD i 0)) l := by
  intro l
  induction l with
  | nil => intro i k hi _; simp at hi
  | cons x t ih =>
    intro i k hi hk
    cases i with
    | zero =>
      cases k with
      | zero =>
        simp only [List.getD_cons_zero, List.set_cons_zero]
        exact List.Perm.refl _
      | succ k =>
        rw [List.getD_cons_succ, List.getD_cons_zero, List.set_cons_zero,
          List.set_cons_succ]
        exact cons_set_perm t k x (by simpa using hk)
    | succ i =>
      cases k with
      | zero =>
        rw [List.getD_cons_zero, List.getD_cons_succ, List.set_cons_succ,
          List.set_cons_zero]
        exact cons_set_perm t i x (by simpa using hi)
      | succ k =>
        rw [List.getD_cons_succ, List.getD_cons_succ, List.set_cons_succ,
          List.set_cons_succ]
        exact List.Perm.cons x (ih i k (by simpa using hi) (by simpa using hk))

theorem permBody_perm {σ : Type} (ev : ℕ → σ → List ℚ × σ) (i : ℕ) (st : PSt σ)
    (hi : 0 < i) (hlen : i < st.perm.length) :
    List.Perm (permBody ev i st).perm st.perm := by
  simp only [permBody]
  split_ifs <;>
    first
      | exact List.Perm.refl _
      | exact set_set_perm st.perm i _ hlen (by omega)

theorem permLoop_perm {σ : Type} (ev : ℕ → σ → List ℚ × σ) :
    ∀ (m : ℕ) (st : PSt σ), m < st.perm.length →
      List.Perm (permLoop ev m st).perm st.perm := by
  intro m
  induction m with
  | zero => intro st _; exact List.Perm.refl _
  | succ m ih =>
    intro st h
    have hb := permBody_perm ev (m + 1) st (Nat.succ_pos m) h
    have hlen : m < (permBody ev (m + 1) st).perm.length := by
      rw [hb.length_eq]
      omega
    exact (ih _ hlen).trans hb

theorem initFoldl_length : ∀ (L : List ℕ) (buf : List ℤ),
    (L.foldl (fun b j => b.set j (j : ℤ)) buf).length = buf.length := by
  intro L
  induction L with
  | nil => intro buf; rfl
  | cons a L ih => intro buf; rw [List.foldl_cons, ih, List.length_set]

theorem initFoldl_getElem? : ∀ (n : ℕ) (buf : List ℤ) (t : ℕ),
    ((List.range n).foldl (fun b j => b.set j (j : ℤ)) buf)[t]? =
      if t < n ∧ t < buf.length then some (t : ℤ) else buf[t]? := by
  intro n
  induction n with
  | zero => intro buf t; simp
  | succ n ih =>
    intro buf t
    rw [List.range_succ, List.foldl_append, List.foldl_cons, List.foldl_nil,
      List.getElem?_set, initFoldl_length, ih]
    by_cases h1 : n = t
    · subst h1
      by_cases h2 : n < buf.length
      · rw [if_pos rfl, if_pos h2, if_pos ⟨Nat.lt_succ_self n, h2⟩]
      · rw [if_pos rfl, if_neg h2,
          if_neg (by omega : ¬(n < n + 1 ∧ n < buf.length)),
          List.getElem?_eq_none (by omega : buf.length ≤ n)]
    · rw [if_neg h1]
      by_cases h3 : t < n ∧ t < buf.length
      · rw [if_pos h3, if_pos (by omega : t < n + 1 ∧ t < buf.length)]
      · rw [if_neg h3, if_neg (by omega : ¬(t < n + 1 ∧ t < buf.length))]

theorem initFoldl_eq_range (n : ℕ) (buf : List ℤ) (h : buf.length = n) :
    (List.range n).foldl (fun b j => b.set j (j : ℤ)) buf =
      (List.range n).map Int.ofNat := by
  apply List.ext_getElem?
  intro t
  rw [initFoldl_getElem?, List.getElem?_map]
  by_cases ht : t < n
  · rw [List.getElem?_range ht, if_pos ⟨ht, by omega⟩]
    rfl
  · rw [if_neg (by omega : ¬(t < n ∧ t < buf.length)),
      List.getElem?_eq_none (by omega : buf.length ≤ t),
      List.getElem?_eq_none (by simpa using Nat.le_of_not_lt ht)]
    rfl

/-- C4: for every `len ≥ 0` and every generator whose draws all lie in
[0,1), `Perm(len, perm)` leaves in the destination array a permutation of
the integers 0..len-1; for `len = 0` and `len = 1` the result is the
trivial/identity permutation and no random value is drawn (the generator
state is returned unchanged). -/
theorem perm_builds_permutation :
    ∀ (σ : Type) (ev : ℕ → σ → List ℚ × σ),
      (∀ (n : ℕ) (g : σ), ∀ x ∈ (ev n g).1, 0 ≤ x ∧ x < 1) →
      ∀ (len : ℕ) (buf : List ℤ), buf.length = len → ∀ g : σ,
        List.Perm (RandGen.Perm ev (len : ℤ) buf g).1
          ((List.range len).map Int.ofNat) ∧
        (len ≤ 1 →
          RandGen.Perm ev (len : ℤ) buf g = ((List.range len).map Int.ofNat, g)) := by
  intro σ ev _ len buf hbuf g
  simp only [RandGen.Perm]
  have h0 : ((len : ℤ)).toNat = len := by omega
  rw [h0, initFoldl_eq_range len buf hbuf]
  cases len with
  | zero =>
    have h1 : (((0 : ℕ) : ℤ) - 1).toNat = 0 := by omega
    rw [h1]
    exact ⟨List.Perm.refl _, fun _ => rfl⟩
  | succ l =>
    have h1 : (((l + 1 : ℕ) : ℤ) - 1).toNat = l := by omega
    rw [h1]
    have hl : l < ((List.range (l + 1)).map Int.ofNat).length := by
      simp
    refine ⟨permLoop_perm ev l _ hl, fun hle => ?_⟩
    have hl0 : l = 0 := by omega
    subst hl0
    rfl

/-- Witness for C4: a generator producing the constant stream 1/2 on state
`Unit`, `len = 3`, buffer `[7, 7, 7]`. -/
theorem perm_builds_permutation_witness :
    ([7, 7, 7] : List ℤ).length = 3 ∧
      List.Perm
        (RandGen.Perm (fun (n : ℕ) (g : Unit) => (List.replicate n (1 / 2 : ℚ), g))
          ((3 : ℕ) : ℤ) [7, 7, 7] ()).1
        ((List.range 3).map Int.ofNat) :=
  ⟨rfl,
   (perm_builds_permutation Unit
      (fun (n : ℕ) (g : Unit) => (List.replicate n (1 / 2 : ℚ), g))
      (by
        intro n g x hx
        have hx2 := List.eq_of_mem_replicate hx
        subst hx2
        norm_num)
      3 [7, 7, 7] rfl ()).1⟩

/-- The `t` recurrence the spec states for `RandGen_1::Seed(s)`:
`t_0 = (IC + abs(s) + 1) mod M1`, `t_{k+1} = (IA * t_k + IC) mod M1`. -/
def specSeedT (s : ℤ) : ℕ → ℤ
  | 0 => (IC + |s| + 1) % M1
  | k + 1 => (IA * specSeedT s k + IC) % M1

set_option maxRecDepth 8000 in
/-- C1 (code bug): two `RandGen_1` instances that differ only in the prior
value of the member `seed` (0 versus 1), both given `Seed(1)` and then 6
scalar `Eval()` calls, produce different sequences: `Seed`'s final
`seed = ABS(t)` assigns to its shadowing parameter, so the member `seed` is
not reset and the two instances keep producing values from different
congruential streams. -/
theorem rg1_seed_not_deterministic :
    (RandGen_1.EvalArr 6 (RandGen_1.Seed 1 ⟨0, 0, List.replicate 98 0⟩)).1 ≠
      (RandGen_1.EvalArr 6 (RandGen_1.Seed 1 ⟨0, 1, List.replicate 98 0⟩)).1 := by
  intro h
  have eA : (RandGen_1.EvalArr 6
        (RandGen_1.Seed 1 ⟨0, 0, List.replicate 98 0⟩)).1.getD 5 0 =
      ((331141 : ℤ) : ℚ) * RM := rfl
  have eB : (RandGen_1.EvalArr 6
        (RandGen_1.Seed 1 ⟨0, 1, List.replicate 98 0⟩)).1.getD 5 0 =
      ((585877 : ℤ) : ℚ) * RM := rfl
  have h5 : ((331141 : ℤ) : ℚ) * RM = ((585877 : ℤ) : ℚ) * RM := by
    rw [← eA, ← eB, h]
  have hRM : RM ≠ 0 := by norm_num [RM]
  have h6 := mul_right_cancel₀ hRM h5
  norm_num at h6

set_option maxRecDepth 8000 in
/-- C2 (code bug): after `RandGen_1::Seed(0)` on an instance whose member
`seed` is 12345, the shuffle table and `index` match the claimed recurrence
(`shuffle[k] = |t_k|`, `index = |t_98| = 21942`), but the member `seed` is
still 12345 — the assignment `seed = ABS(t)` hits the shadowing parameter,
not the member. -/
theorem rg1_seed_member_not_reset :
    (RandGen_1.Seed 0 ⟨0, 12345, List.replicate 98 0⟩).index = |specSeedT 0 98| ∧
      ((List.range 97).all fun k =>
        decide ((RandGen_1.Seed 0 ⟨0, 12345, List.replicate 98 0⟩).shuffle.getD (k + 1) 0 =
          |specSeedT 0 (k + 1)|)) = true ∧
      |specSeedT 0 98| = 21942 ∧
      (RandGen_1.Seed 0 ⟨0, 12345, List.replicate 98 0⟩).seed = 12345 ∧
      (12345 : ℤ) ≠ 21942 := by
  decide

set_option maxRecDepth 8000 in
/-- C5 (code bug): on a `RandGen_1` instance whose member `seed` is
-200000, after `Seed(1)` the 6th scalar draw is negative, outside [0,1):
`Eval` rewrites table slots with `(IA*seed + IC) % M1`, and with the stale
negative member `seed` the C truncated remainder is negative. -/
theorem rg1_eval_returns_negative :
    (RandGen_1.EvalArr 6 (RandGen_1.Seed 1 ⟨0, -200000, List.replicate 98 0⟩)).1.getD 5 0
      < 0 := by
  have e : (RandGen_1.EvalArr 6
        (RandGen_1.Seed 1 ⟨0, -200000, List.replicate 98 0⟩)).1.getD 5 0 =
      ((-471084 : ℤ) : ℚ) * RM := rfl
  rw [e]
  norm_num [RM]

set_option maxRecDepth 8000 in
/-- C8 (code bug): on a `RandGen_1` instance whose member `seed` is
-200000, immediately after `Seed(1)` all table entries are non-negative,
but a single `Eval()` writes the negative value
`(IA * (-200000) + IC) % M1 = -291561` into the table. -/
theorem rg1_table_entry_goes_negative :
    ((RandGen_1.Seed 1 ⟨0, -200000, List.replicate 98 0⟩).shuffle.all fun v =>
        decide (0 ≤ v)) = true ∧
      ((RandGen_1.Eval (RandGen_1.Seed 1 ⟨0, -200000, List.replicate 98 0⟩)).2.shuffle.any
        fun v => decide (v < 0)) = true := by
  decide
